import Mathlib

/-!
Shallow embedding of `src/pyte/streams.py` (the stream / escape-sequence
state machine of the `pyte` terminal emulator) together with proofs about
the behaviour of its operations.

The Python module is embedded as written, bug for bug: where a statement
reads an attribute that is never set, looks up a missing dictionary key,
or references a member the `State` enum does not declare, the embedding
returns an explicit `PyErr` value at exactly that point, after performing
the side effects (event enqueues) that precede it.  `feed`'s `while` loop
is embedded with an explicit fuel parameter so that its non-termination on
particular inputs is expressible as "for every fuel the loop is still
running".
-/

namespace Pyte

/-- Events enqueued on the listener: a name plus positional arguments
(`Event(name, *args)` in the source; the arguments that actually occur are
strings and integers). -/
inductive Arg where
  | s (v : String)
  | n (v : Nat)
  deriving DecidableEq, Repr

/-- An `Event` record (`streams.py`, class `Event`): a name and its
positional arguments (keyword arguments never occur on reachable paths). -/
structure Event where
  name : String
  args : List Arg
  deriving DecidableEq, Repr

/-- A Python exception produced by the module as written: an
`AttributeError` (attribute or enum-member lookup on a name that does not
exist) or a `KeyError` (plain-`dict` lookup of a missing key). -/
inductive PyErr where
  | attributeError (name : String)
  | keyError (key : Char)
  deriving DecidableEq, Repr

/-- `class State(Enum)` from the source: exactly the four declared members
`GROUND`, `ESC`, `CSI_ENTRY`, `OSC_STRING`.  The source also *references*
`State.Ground`, `State.ESC_SHARP`, `State.ESC_CHARSET` and
`State.ESC_CODE`, none of which are declared; evaluating those references
raises `AttributeError`. -/
inductive State where
  | GROUND
  | ESC
  | CSI_ENTRY
  | OSC_STRING
  deriving DecidableEq, Repr

/-- Modelled from the spec: the control-character constants imported from
the repository's `control` module, which is not under `src/`; the values
are the standard C0/C1 codes the spec's tables refer to. -/
def NUL : Char := Char.ofNat 0x00

/-- Modelled from the spec: BEL, C0 code 0x07. -/
def BEL : Char := Char.ofNat 0x07

/-- Modelled from the spec: BS, C0 code 0x08. -/
def BS : Char := Char.ofNat 0x08

/-- Modelled from the spec: HT, C0 code 0x09. -/
def HT : Char := Char.ofNat 0x09

/-- Modelled from the spec: LF, C0 code 0x0a. -/
def LF : Char := Char.ofNat 0x0a

/-- Modelled from the spec: VT, C0 code 0x0b. -/
def VT : Char := Char.ofNat 0x0b

/-- Modelled from the spec: FF, C0 code 0x0c. -/
def FF : Char := Char.ofNat 0x0c

/-- Modelled from the spec: CR, C0 code 0x0d. -/
def CR : Char := Char.ofNat 0x0d

/-- Modelled from the spec: SO (shift out), C0 code 0x0e. -/
def SO : Char := Char.ofNat 0x0e

/-- Modelled from the spec: SI (shift in), C0 code 0x0f. -/
def SI : Char := Char.ofNat 0x0f

/-- Modelled from the spec: DEL, code 0x7f. -/
def DEL : Char := Char.ofNat 0x7f

/-- Modelled from the spec: ESC, code 0x1b. -/
def ESC : Char := Char.ofNat 0x1b

/-- Modelled from the spec: the 8-bit CSI introducer, C1 code 0x9b. -/
def CSI_C1 : Char := Char.ofNat 0x9b

/-- Modelled from the spec: the 8-bit OSC introducer, C1 code 0x9d. -/
def OSC_C1 : Char := Char.ofNat 0x9d

/-- The `basic` dispatch table of the source (single control byte to event
name), embedded as an association list in source order. -/
def basic : List (Char × String) :=
  [(BEL, "bell"), (BS, "backspace"), (HT, "tab"), (LF, "linefeed"),
   (VT, "linefeed"), (FF, "linefeed"), (CR, "carriage_return"),
   (SO, "shift_out"), (SI, "shift_in")]

/-- The `escape` dispatch table of the source (non-CSI `ESC x` final byte
to event name).  The final-byte constants come from the repository's
`escape` module, which is not under `src/`; they are modelled from the
spec as the standard VT100 codes (RIS `c`, IND `D`, NEL `E`, RI `M`,
HTS `H`, DECSC `7`, DECRC `8`). -/
def escape : List (Char × String) :=
  [('c', "reset"), ('D', "index"), ('E', "linefeed"), ('M', "reverse_index"),
   ('H', "set_tab_stop"), ('7', "save_cursor"), ('8', "restore_cursor")]

/-- The `sharp` dispatch table (`ESC # x`); the DECALN final byte `8` is
modelled from the spec (the `escape` module is not under `src/`). -/
def sharp : List (Char × String) :=
  [('8', "alignment_display")]

/-- The `csi` dispatch table (CSI final byte to event name); final bytes
are modelled from the spec as the standard VT100/ANSI codes, in source
order. -/
def csi : List (Char × String) :=
  [('@', "insert_characters"), ('A', "cursor_up"), ('B', "cursor_down"),
   ('C', "cursor_forward"), ('D', "cursor_back"), ('E', "cursor_down1"),
   ('F', "cursor_up1"), ('G', "cursor_to_column"), ('H', "cursor_position"),
   ('J', "erase_in_display"), ('K', "erase_in_line"), ('L', "insert_lines"),
   ('M', "delete_lines"), ('P', "delete_characters"), ('X', "erase_characters"),
   ('a', "cursor_forward"), ('c', "report_device_attributes"),
   ('d', "cursor_to_line"), ('e', "cursor_down"), ('f', "cursor_position"),
   ('g', "clear_tab_stop"), ('h', "set_mode"), ('l', "reset_mode"),
   ('m', "select_graphic_rendition"), ('n', "report_device_status"),
   ('r', "set_margins"), (Char.ofNat 39, "cursor_to_column")]

/-- The module-level `events` frozenset: every event name the stream can
dispatch (the union of the four tables plus `define_charset`, the OSC
names, `draw` and `debug`); embedded as a list, duplicates irrelevant. -/
def events : List String :=
  basic.map Prod.snd ++ escape.map Prod.snd ++ sharp.map Prod.snd ++
    csi.map Prod.snd ++
    ["define_charset", "set_icon_name", "set_title", "draw", "debug"]

/-- The `_special` set of the source: `{ESC, CSI_C1, NUL, DEL, OSC_C1}`
together with every key of `basic`.  `_text_pattern` matches a maximal
nonempty run of characters outside this set. -/
def special : List Char :=
  [ESC, CSI_C1, NUL, DEL, OSC_C1] ++ basic.map Prod.fst

/-- Membership in `_special`. -/
def isSpecial (c : Char) : Bool := special.contains c

/-- The span matched by `_text_pattern.match(data, offset)`, relative to
`offset`: the longest prefix of characters not in `_special` (empty when
the regex does not match, since the pattern requires at least one
character). -/
def textRun (cs : List Char) : List Char := cs.takeWhile (fun c => !isSpecial c)

/-- A `draw` event carrying one string, as enqueued by the scanner and by
the FSM. -/
def mkDraw (cs : List Char) : Event := ⟨"draw", [Arg.s cs.asString]⟩

/-- The mutable fields of a `Stream` instance relevant to parsing, exactly
the ones `__init__` sets: `_state`, `use_utf8`, `_taking_plain_text`, and
the attached listener's `event_queue` (events only ever get appended).
`__init__` also binds `_buffer`, which no other code reads. -/
structure Stream where
  state : State
  use_utf8 : Bool
  taking_plain_text : Bool
  event_queue : List Event
  deriving DecidableEq, Repr

/-- The state of a freshly constructed `Stream` (no screen attached):
`_state = GROUND`, `use_utf8 = True`, `_taking_plain_text = True`, empty
event queue. -/
def initStream : Stream :=
  { state := State.GROUND, use_utf8 := true,
    taking_plain_text := true, event_queue := [] }

/-- `Stream._parse_byte`, embedded statement by statement as written.

The reachable region is:
* `GROUND`: any char other than NUL/DEL is enqueued as a raw `draw`, then
  `return State.Ground` evaluates a member the enum does not declare, so
  the call raises `AttributeError` (after the enqueue);
* any state, char `ESC`: go to state `ESC`;
* `ESC`: `[` and `]` go to `CSI_ENTRY` / `OSC_STRING`; `#`, `%`, `(`, `)`
  return the undeclared members `ESC_SHARP` / `ESC_CHARSET` / `ESC_CODE`,
  raising `AttributeError`; any other char is looked up in the plain dict
  `escape`, raising `KeyError` when absent, else enqueuing the mapped
  event and returning to `GROUND`;
* any other state (`CSI_ENTRY`, `OSC_STRING`): the next test is
  `self._state == State.ESC_SHARP`, whose right-hand side raises
  `AttributeError`, so the lines from `if char in basic:` onwards
  (including the leftover generator code with `yield` in the CSI and OSC
  branches) are unreachable.

The result is the list of events enqueued before return or raise, and
either the returned next state or the exception raised. -/
def parse_byte (state : State) (char : Char) :
    List Event × Except PyErr State :=
  if state = State.GROUND then
    ((if char = NUL ∨ char = DEL then [] else [mkDraw [char]]),
     Except.error (PyErr.attributeError "Ground"))
  else if char = ESC then
    ([], Except.ok State.ESC)
  else if state = State.ESC then
    if char = '[' then ([], Except.ok State.CSI_ENTRY)
    else if char = ']' then ([], Except.ok State.OSC_STRING)
    else if char = '#' then ([], Except.error (PyErr.attributeError "ESC_SHARP"))
    else if char = '%' then ([], Except.error (PyErr.attributeError "ESC_CHARSET"))
    else if char = '(' ∨ char = ')' then
      ([], Except.error (PyErr.attributeError "ESC_CODE"))
    else
      match escape.lookup char with
      | some ev => ([⟨ev, []⟩], Except.ok State.GROUND)
      | none => ([], Except.error (PyErr.keyError char))
  else
    ([], Except.error (PyErr.attributeError "ESC_SHARP"))

/-- The possible outcomes of running `feed`'s `while` loop with a given
amount of fuel: still running when the fuel ran out (reported with the
configuration reached), a Python exception propagating out of the loop
body, or a normal return. -/
inductive FeedOutcome where
  | diverged (s : Stream) (offset : Nat)
  | raised (s : Stream) (e : PyErr)
  | returned (s : Stream)
  deriving DecidableEq, Repr

/-- `Stream.feed`'s `while offset < length` loop, as written, from a given
offset.  Note the else-branch of the text match: the source executes
`taking_plain_text = False`, which binds a dead *local* variable and
leaves `self._taking_plain_text` (the field the loop condition reads)
unchanged, so the iteration repeats with an identical configuration.  The
not-taking-plain-text branch assigns `self._parse_byte(...)` to
`self._state` and advances; it is embedded via `parse_byte` with events
appended and exceptions propagating (as written the Python function is a
generator because of leftover `yield`s, so this branch is doubly broken,
but it is unreachable from any state with `_taking_plain_text` true). -/
def feedFrom : Nat → Stream → List Char → Nat → FeedOutcome
  | 0, s, _, offset => FeedOutcome.diverged s offset
  | Nat.succ fuel, s, data, offset =>
    if offset < data.length then
      if s.taking_plain_text then
        let run := textRun (data.drop offset)
        if run.isEmpty then
          feedFrom fuel s data offset
        else
          feedFrom fuel { s with event_queue := s.event_queue ++ [mkDraw run] }
            data (offset + run.length)
      else
        match parse_byte s.state (data.getD offset NUL) with
        | (evs, Except.ok st) =>
            feedFrom fuel { s with state := st, event_queue := s.event_queue ++ evs }
              data (offset + 1)
        | (evs, Except.error e) =>
            FeedOutcome.raised { s with event_queue := s.event_queue ++ evs } e
    else
      FeedOutcome.returned s

/-- `Stream.feed(data)`: run the loop from offset 0 with the given fuel. -/
def feed (fuel : Nat) (s : Stream) (data : List Char) : FeedOutcome :=
  feedFrom fuel s data 0

/-- If the loop's current configuration points at a special character
while `_taking_plain_text` is set, the iteration changes nothing (the
source assigns a local instead of the instance flag), so no amount of
fuel makes the loop terminate. -/
theorem feedFrom_stuck {s : Stream} {data : List Char} {offset : Nat}
    (hoff : offset < data.length) (htak : s.taking_plain_text = true)
    (hrun : (textRun (data.drop offset)).isEmpty = true) :
    ∀ fuel, feedFrom fuel s data offset = FeedOutcome.diverged s offset := by
  intro fuel
  induction fuel with
  | zero => rfl
  | succ n ih =>
      rw [feedFrom]
      simp only [hoff, if_true, htak, hrun, ih, if_pos]

/-- Feeding data made of plain (non-special) characters terminates after
drawing the whole run: one iteration matches the full text, the next
observes `offset = length` and returns. -/
theorem feedFrom_plain (fuel : Nat) (s : Stream) (data : List Char)
    (htak : s.taking_plain_text = true)
    (h : ∀ c ∈ data, isSpecial c = false) :
    feedFrom (fuel + 2) s data 0 =
      FeedOutcome.returned
        (if data.isEmpty then s
         else { s with event_queue := s.event_queue ++ [mkDraw data] }) := by
  have hrun : textRun data = data := by
    unfold textRun
    exact List.takeWhile_eq_self_iff.mpr (by
      intro c hc
      simp [h c hc])
  cases data with
  | nil => rfl
  | cons a as =>
      have hlen : 0 < (a :: as).length := by simp
      rw [feedFrom]
      simp only [hlen, if_true, htak, List.drop_zero, hrun, if_pos]
      have hne : ((a :: as).isEmpty) = false := rfl
      rw [hne]
      simp only [Bool.false_eq_true, if_false]
      rw [feedFrom]
      simp [List.isEmpty]

/-- Feeding a list of chunks in order through `Stream.feed`, threading the
stream state from one call to the next; each chunk is given fuel
`length + 2`, enough for any chunk that `feed` consumes in a single text
run.  Stops at the first outcome that is not a normal return. -/
def feedAll : Stream → List (List Char) → FeedOutcome
  | s, [] => FeedOutcome.returned s
  | s, c :: rest =>
    match feed (c.length + 2) s c with
    | FeedOutcome.returned t => feedAll t rest
    | out => out

/-- The concatenated text carried by the `draw` events of an event queue
(events that are not single-string draws contribute nothing). -/
def drawnText (q : List Event) : List Char :=
  (q.map (fun e =>
    match e with
    | ⟨"draw", [Arg.s v]⟩ => v.data
    | _ => [])).flatten

theorem drawnText_map_mkDraw (l : List (List Char)) :
    drawnText (l.map mkDraw) = l.flatten := by
  induction l with
  | nil => rfl
  | cons c rest ih =>
      simp only [drawnText, mkDraw, List.map_cons, List.flatten_cons] at ih ⊢
      rw [ih]
      rfl

theorem flatten_filter_nonempty (l : List (List Char)) :
    (l.filter (fun c => !c.isEmpty)).flatten = l.flatten := by
  induction l with
  | nil => rfl
  | cons c rest ih =>
      cases c with
      | nil => simpa [List.filter] using ih
      | cons a as => simp [List.filter, ih]

theorem feedAll_plain :
    ∀ (chunks : List (List Char)) (s : Stream),
      s.taking_plain_text = true →
      (∀ c ∈ chunks, ∀ ch ∈ c, isSpecial ch = false) →
      feedAll s chunks =
        FeedOutcome.returned
          { s with event_queue :=
              s.event_queue ++ (chunks.filter (fun c => !c.isEmpty)).map mkDraw } := by
  intro chunks
  induction chunks with
  | nil =>
      intro s htak _
      obtain ⟨st, u8, tak, q⟩ := s
      simp [feedAll]
  | cons c rest ih =>
      intro s htak h
      rw [feedAll]
      have hf : feed (c.length + 2) s c =
          FeedOutcome.returned
            (if c.isEmpty then s
             else { s with event_queue := s.event_queue ++ [mkDraw c] }) :=
        feedFrom_plain c.length s c htak (h c (by simp))
      rw [hf]
      by_cases hc : c.isEmpty = true
      · have hcnil : c = [] := List.isEmpty_iff.mp hc
        subst hcnil
        simp only [List.isEmpty_nil, if_true]
        rw [ih s htak (fun d hd => h d (by simp [hd]))]
        simp [List.filter]
      · simp only [hc, if_false, Bool.false_eq_true]
        rw [ih { s with event_queue := s.event_queue ++ [mkDraw c] } htak
          (fun d hd => h d (by simp [hd]))]
        have hc0 : c.isEmpty = false := by
          revert hc
          cases c.isEmpty <;> simp
        have hfil : (c :: rest).filter (fun d => !d.isEmpty) =
            c :: rest.filter (fun d => !d.isEmpty) := by
          rw [List.filter_cons, if_pos (by rw [hc0]; rfl)]
        rw [hfil]
        simp [List.append_assoc]

/-- A consumer (screen) is modelled by the set of method names it
implements; `hasattr(screen, event)` is membership in that set. -/
structure Consumer where
  methods : List String
  deriving DecidableEq, Repr

/-- The `Listener` object: `__init__` sets exactly the attributes
`strict`, `screen` (the single consumer slot, initially `None`) and
`event_queue`. -/
structure Listener where
  strict : Bool
  screen : Option Consumer
  event_queue : List Event
  deriving DecidableEq, Repr

set_option linter.unusedVariables false in
/-- `Listener.attach`, as written: its first statement is
`if self.listener is not None:` — but `__init__` sets only `strict`,
`screen` and `event_queue` on the object, so the lookup `self.listener`
raises `AttributeError` on every call, before the `strict` completeness
loop (which would read the likewise nonexistent `self.events`) can run,
and regardless of the `strict` flag or of which methods the screen
implements. -/
def Listener.attach (l : Listener) (screen : Consumer) : Except PyErr Listener :=
  Except.error (PyErr.attributeError "listener")

/-- `Listener.detach`, as written: clears the slot only when the given
screen is the currently attached one; otherwise does nothing. -/
def Listener.detach (l : Listener) (screen : Consumer) : Listener :=
  if l.screen = some screen then { l with screen := none } else l

/-- A consumer implementing every name in the `events` set. -/
def fullConsumer : Consumer := ⟨events⟩

/-- A `Listener` as produced by `Listener.__init__(strict)`. -/
def freshListener (strict : Bool) : Listener := ⟨strict, none, []⟩

/-- `ByteStream`: the character stream plus the incremental UTF-8 decoder
created by `codecs.getincrementaldecoder("utf-8")("replace")`.  Of the
decoder object, the state observable here is its internal carry buffer of
pending bytes (the prefix of an incomplete multi-byte sequence held
between `decode` calls); `reset()` clears that buffer. -/
structure ByteStream extends Stream where
  utf8_decoder : List Nat
  deriving DecidableEq, Repr

/-- `ByteStream.select_other_charset`, as written: `"@"` switches
`use_utf8` off and calls `self.utf8_decoder.reset()`; `"G"` and `"8"`
switch `use_utf8` back on and do not touch the decoder; any other code is
ignored. -/
def ByteStream.select_other_charset (self : ByteStream) (code : Char) : ByteStream :=
  if code = '@' then
    { self with use_utf8 := false, utf8_decoder := [] }
  else if code = 'G' ∨ code = '8' then
    { self with use_utf8 := true }
  else
    self

/-- A `ByteStream` in legacy (non-UTF-8) mode whose incremental decoder
still holds a pending byte `0xe2` (the first byte of a three-byte UTF-8
sequence). -/
def pendingByteStream : ByteStream :=
  { state := State.GROUND, use_utf8 := false, taking_plain_text := true,
    event_queue := [], utf8_decoder := [0xe2] }

/-- A fresh `ByteStream`, as `ByteStream.__init__` leaves it: a fresh
character stream and a decoder with an empty carry buffer. -/
def initByteStream : ByteStream := { toStream := initStream, utf8_decoder := [] }

/-- Modelled from the spec: the replacement character U+FFFD that the
decoder's `"replace"` error handler substitutes for invalid input. -/
def replacementChar : Char := Char.ofNat 0xfffd

/-- Modelled from the spec: the length of the UTF-8 sequence a lead byte
introduces (`none` when the byte cannot start a sequence: a stray
continuation byte 0x80–0xbf, the overlong leads 0xc0/0xc1, or 0xf5+). -/
def utf8SeqLen (b : Nat) : Option Nat :=
  if b < 0x80 then some 1
  else if 0xc2 ≤ b ∧ b < 0xe0 then some 2
  else if 0xe0 ≤ b ∧ b < 0xf0 then some 3
  else if 0xf0 ≤ b ∧ b < 0xf5 then some 4
  else none

/-- Modelled from the spec: is `b` a UTF-8 continuation byte. -/
def utf8IsCont (b : Nat) : Bool := decide (0x80 ≤ b ∧ b < 0xc0)

/-- Modelled from the spec: the code point assembled from a complete
UTF-8 sequence (lead byte followed by its continuation bytes). -/
def utf8CodePoint : List Nat → Nat
  | [] => 0xfffd
  | b :: rest =>
    let lead := if b < 0x80 then b
                else if b < 0xe0 then b % 0x20
                else if b < 0xf0 then b % 0x10
                else b % 0x08
    rest.foldl (fun acc c => acc * 64 + c % 64) lead

/-- Modelled from the spec: the character a completed sequence decodes to
— its code point when in range and not overlong and not a surrogate,
U+FFFD otherwise. -/
def utf8EmitChar (bs : List Nat) : Char :=
  let cp := utf8CodePoint bs
  let minCp := if bs.length ≤ 1 then 0 else if bs.length = 2 then 0x80
               else if bs.length = 3 then 0x800 else 0x10000
  if minCp ≤ cp ∧ (cp < 0xd800 ∨ (0xe000 ≤ cp ∧ cp < 0x110000)) then
    Char.ofNat cp
  else replacementChar

/-- Modelled from the spec: one step of the incremental UTF-8 decoder
created by `codecs.getincrementaldecoder("utf-8")("replace")` (library
code, not part of this repository).  The carry buffer holds the bytes of
the current incomplete sequence.  Consuming one byte: an ASCII byte is
emitted at once; a lead byte starts a carry; a continuation byte extends
the carry and, on completion, the sequence's character is emitted; an
invalid byte, or a non-continuation byte arriving while a carry is open,
emits U+FFFD for the rejected input (the spec requires substitution,
never failure) and the new byte is then treated as a fresh start.
A partial trailing sequence is never discarded: it stays in the carry
for the next call. -/
def utf8Step (pending : List Nat) (b : Nat) : List Char × List Nat :=
  match pending with
  | [] =>
    match utf8SeqLen b with
    | some 1 => ([Char.ofNat b], [])
    | some _ => ([], [b])
    | none => ([replacementChar], [])
  | lead :: _ =>
    if utf8IsCont b then
      if pending.length + 1 = (utf8SeqLen lead).getD 0 then
        ([utf8EmitChar (pending ++ [b])], [])
      else
        ([], pending ++ [b])
    else
      match utf8SeqLen b with
      | some 1 => ([replacementChar, Char.ofNat b], [])
      | some _ => ([replacementChar], [b])
      | none => ([replacementChar, replacementChar], [])

/-- The accumulator step for folding `utf8Step` over a byte string. -/
def utf8Acc (acc : List Char × List Nat) (b : Nat) : List Char × List Nat :=
  (acc.1 ++ (utf8Step acc.2 b).1, (utf8Step acc.2 b).2)

/-- Modelled from the spec: `utf8_decoder.decode(data)` — decode a byte
chunk starting from the given carry, returning the emitted text and the
new carry. -/
def utf8Decode (pending : List Nat) (data : List Nat) : List Char × List Nat :=
  data.foldl utf8Acc ([], pending)

/-- Decoding a list of byte chunks one call at a time, threading the
carry: the per-chunk texts and the final carry. -/
def decodeChunks : List Nat → List (List Nat) → List (List Char) × List Nat
  | p, [] => ([], p)
  | p, c :: rest =>
    let t := utf8Decode p c
    let ts := decodeChunks t.2 rest
    (t.1 :: ts.1, ts.2)

/-- The outcome of a `ByteStream.feed` call: the character-level outcome
together with the updated decoder carry (the decoder is updated before
the inner `feed` runs). -/
inductive ByteFeedOutcome where
  | diverged (b : ByteStream) (offset : Nat)
  | raised (b : ByteStream) (e : PyErr)
  | returned (b : ByteStream)
  deriving DecidableEq, Repr

/-- `ByteStream.feed(data)`, as written: in UTF-8 mode the chunk is put
through the incremental decoder (whose carry survives between calls); in
legacy mode each byte maps 1:1 to a character via `chr`; the decoded text
is then handed to `Stream.feed`.  The inner `feed` gets fuel
`text.length + 2`, the amount that suffices whenever it terminates by
consuming the text as a single plain run (the policy `feedAll` uses). -/
def ByteStream.feed (self : ByteStream) (data : List Nat) : ByteFeedOutcome :=
  let td := if self.use_utf8 then utf8Decode self.utf8_decoder data
            else (data.map Char.ofNat, self.utf8_decoder)
  match Pyte.feed (td.1.length + 2) self.toStream td.1 with
  | FeedOutcome.returned s =>
      ByteFeedOutcome.returned { toStream := s, utf8_decoder := td.2 }
  | FeedOutcome.diverged s off =>
      ByteFeedOutcome.diverged { toStream := s, utf8_decoder := td.2 } off
  | FeedOutcome.raised s e =>
      ByteFeedOutcome.raised { toStream := s, utf8_decoder := td.2 } e

/-- Feeding a list of byte chunks in order through `ByteStream.feed`,
threading the stream state and the decoder carry; stops at the first
outcome that is not a normal return. -/
def byteFeedAll : ByteStream → List (List Nat) → ByteFeedOutcome
  | bs, [] => ByteFeedOutcome.returned bs
  | bs, c :: rest =>
    match ByteStream.feed bs c with
    | ByteFeedOutcome.returned t => byteFeedAll t rest
    | out => out

theorem utf8Decode_acc (data : List Nat) :
    ∀ (acc : List Char) (p : List Nat),
      data.foldl utf8Acc (acc, p) =
        (acc ++ (utf8Decode p data).1, (utf8Decode p data).2) := by
  induction data with
  | nil =>
      intro acc p
      simp [utf8Decode]
  | cons b rest ih =>
      intro acc p
      rw [List.foldl_cons]
      have h1 : utf8Acc (acc, p) b = (acc ++ (utf8Step p b).1, (utf8Step p b).2) := rfl
      rw [h1, ih (acc ++ (utf8Step p b).1) (utf8Step p b).2]
      have h2 : utf8Decode p (b :: rest) =
          ((utf8Step p b).1 ++ (utf8Decode (utf8Step p b).2 rest).1,
           (utf8Decode (utf8Step p b).2 rest).2) := by
        show (b :: rest).foldl utf8Acc ([], p) = _
        rw [List.foldl_cons]
        have h3 : utf8Acc ([], p) b = ((utf8Step p b).1, (utf8Step p b).2) := rfl
        rw [h3]
        exact ih (utf8Step p b).1 (utf8Step p b).2
      rw [h2]
      simp [List.append_assoc]

theorem utf8Decode_append (p a b : List Nat) :
    utf8Decode p (a ++ b) =
      ((utf8Decode p a).1 ++ (utf8Decode (utf8Decode p a).2 b).1,
       (utf8Decode (utf8Decode p a).2 b).2) := by
  show (a ++ b).foldl utf8Acc ([], p) = _
  rw [List.foldl_append]
  calc b.foldl utf8Acc (a.foldl utf8Acc ([], p))
      = b.foldl utf8Acc ((utf8Decode p a).1, (utf8Decode p a).2) := rfl
    _ = _ := utf8Decode_acc b (utf8Decode p a).1 (utf8Decode p a).2

theorem decodeChunks_flatten :
    ∀ (bchunks : List (List Nat)) (p : List Nat),
      (decodeChunks p bchunks).1.flatten = (utf8Decode p bchunks.flatten).1 ∧
      (decodeChunks p bchunks).2 = (utf8Decode p bchunks.flatten).2 := by
  intro bchunks
  induction bchunks with
  | nil =>
      intro p
      exact ⟨by simp [decodeChunks, utf8Decode], by simp [decodeChunks, utf8Decode]⟩
  | cons c rest ih =>
      intro p
      have happ := utf8Decode_append p c rest.flatten
      constructor
      · show ((utf8Decode p c).1 :: (decodeChunks (utf8Decode p c).2 rest).1).flatten = _
        rw [List.flatten_cons, (ih (utf8Decode p c).2).1,
          show (c :: rest).flatten = c ++ rest.flatten from rfl, happ]
      · show (decodeChunks (utf8Decode p c).2 rest).2 = _
        rw [(ih (utf8Decode p c).2).2,
          show (c :: rest).flatten = c ++ rest.flatten from rfl, happ]

theorem byteFeedAll_plain :
    ∀ (bchunks : List (List Nat)) (st : State) (tak : Bool) (q : List Event)
      (p : List Nat),
      tak = true →
      (∀ ch ∈ (utf8Decode p bchunks.flatten).1, isSpecial ch = false) →
      byteFeedAll { toStream := ⟨st, true, tak, q⟩, utf8_decoder := p } bchunks =
        ByteFeedOutcome.returned
          { toStream := ⟨st, true, tak, q ++
              ((decodeChunks p bchunks).1.filter (fun t => !t.isEmpty)).map mkDraw⟩,
            utf8_decoder := (decodeChunks p bchunks).2 } := by
  intro bchunks
  induction bchunks with
  | nil =>
      intro st tak q p htak h
      simp [byteFeedAll, decodeChunks]
  | cons c rest ih =>
      intro st tak q p htak h
      subst htak
      have happ := utf8Decode_append p c rest.flatten
      have hc : ∀ ch ∈ (utf8Decode p c).1, isSpecial ch = false := by
        intro ch hch
        refine h ch ?_
        rw [show (c :: rest).flatten = c ++ rest.flatten from rfl, happ]
        exact List.mem_append_left _ hch
      have hrest :
          ∀ ch ∈ (utf8Decode (utf8Decode p c).2 rest.flatten).1, isSpecial ch = false := by
        intro ch hch
        refine h ch ?_
        rw [show (c :: rest).flatten = c ++ rest.flatten from rfl, happ]
        exact List.mem_append_right _ hch
      have hfeedS := feedFrom_plain (utf8Decode p c).1.length ⟨st, true, true, q⟩
        (utf8Decode p c).1 rfl hc
      have hd : decodeChunks p (c :: rest) =
          ((utf8Decode p c).1 :: (decodeChunks (utf8Decode p c).2 rest).1,
           (decodeChunks (utf8Decode p c).2 rest).2) := rfl
      rw [byteFeedAll]
      by_cases hce : (utf8Decode p c).1.isEmpty = true
      · have htnil : (utf8Decode p c).1 = [] := List.isEmpty_iff.mp hce
        rw [hce, if_pos rfl] at hfeedS
        have hbf : ByteStream.feed { toStream := ⟨st, true, true, q⟩, utf8_decoder := p } c =
            ByteFeedOutcome.returned
              { toStream := ⟨st, true, true, q⟩, utf8_decoder := (utf8Decode p c).2 } := by
          show (match feedFrom ((utf8Decode p c).1.length + 2) ⟨st, true, true, q⟩
                  (utf8Decode p c).1 0 with
                | FeedOutcome.returned s =>
                    ByteFeedOutcome.returned ⟨s, (utf8Decode p c).2⟩
                | FeedOutcome.diverged s off =>
                    ByteFeedOutcome.diverged ⟨s, (utf8Decode p c).2⟩ off
                | FeedOutcome.raised s e =>
                    ByteFeedOutcome.raised ⟨s, (utf8Decode p c).2⟩ e) = _
          rw [hfeedS]
        rw [hbf]
        show byteFeedAll
            { toStream := ⟨st, true, true, q⟩, utf8_decoder := (utf8Decode p c).2 } rest = _
        rw [ih st true q (utf8Decode p c).2 rfl hrest]
        simp [hd, htnil, List.filter]
      · have hce0 : (utf8Decode p c).1.isEmpty = false := by
          revert hce
          cases (utf8Decode p c).1.isEmpty <;> simp
        rw [hce0, if_neg (by simp)] at hfeedS
        have hfeedS2 : feedFrom ((utf8Decode p c).1.length + 2) ⟨st, true, true, q⟩
            (utf8Decode p c).1 0 =
            FeedOutcome.returned ⟨st, true, true, q ++ [mkDraw (utf8Decode p c).1]⟩ := hfeedS
        have hbf : ByteStream.feed { toStream := ⟨st, true, true, q⟩, utf8_decoder := p } c =
            ByteFeedOutcome.returned
              { toStream := ⟨st, true, true, q ++ [mkDraw (utf8Decode p c).1]⟩,
                utf8_decoder := (utf8Decode p c).2 } := by
          show (match feedFrom ((utf8Decode p c).1.length + 2) ⟨st, true, true, q⟩
                  (utf8Decode p c).1 0 with
                | FeedOutcome.returned s =>
                    ByteFeedOutcome.returned ⟨s, (utf8Decode p c).2⟩
                | FeedOutcome.diverged s off =>
                    ByteFeedOutcome.diverged ⟨s, (utf8Decode p c).2⟩ off
                | FeedOutcome.raised s e =>
                    ByteFeedOutcome.raised ⟨s, (utf8Decode p c).2⟩ e) = _
          rw [hfeedS2]
        rw [hbf]
        show byteFeedAll
            { toStream := ⟨st, true, true, q ++ [mkDraw (utf8Decode p c).1]⟩,
              utf8_decoder := (utf8Decode p c).2 } rest = _
        rw [ih st true (q ++ [mkDraw (utf8Decode p c).1]) (utf8Decode p c).2 rfl hrest]
        have hfil : ((utf8Decode p c).1 :: (decodeChunks (utf8Decode p c).2 rest).1).filter
            (fun t => !t.isEmpty) =
            (utf8Decode p c).1 ::
              ((decodeChunks (utf8Decode p c).2 rest).1.filter (fun t => !t.isEmpty)) := by
          rw [List.filter_cons, if_pos (by rw [hce0]; rfl)]
        simp [hd, hfil, List.append_assoc]

/-- C1: the claim says feeding `"abc\x1b[5Bdef"` to a character-input
`Stream` produces exactly the three events `draw("abc")`,
`cursor_down(5)`, `draw("def")`.  In the code as written, `feed` draws
`"abc"` and then loops forever at the ESC character: the failed text
match executes `taking_plain_text = False`, binding a dead local instead
of `self._taking_plain_text`, so every later iteration repeats
identically.  For every fuel, the loop is still at offset 3 with only
`draw("abc")` enqueued; `cursor_down` and `draw("def")` are never
produced and `feed` never returns. -/
theorem c1_plain_text_coalescing_never_completes :
    ∀ fuel, feed (fuel + 1) initStream ("abc\x1b[5Bdef".data) =
      FeedOutcome.diverged
        { initStream with event_queue := [mkDraw ("abc".data)] } 3 := by
  intro fuel
  have hstep : feed (fuel + 1) initStream ("abc\x1b[5Bdef".data) =
      feedFrom fuel { initStream with event_queue := [mkDraw ("abc".data)] }
        ("abc\x1b[5Bdef".data) 3 := rfl
  rw [hstep]
  exact feedFrom_stuck (by decide) rfl (by decide) fuel

/-- C2: the claim says `CSI ; 5 H` dispatches `cursor_position(0, 5)` and
`CSI 99999 A` dispatches `cursor_up(9999)`.  In the code as written,
`feed` loops forever as soon as it reaches the ESC introducer (the failed
text match assigns a dead local instead of `self._taking_plain_text`), so
neither sequence ever reaches the CSI parameter logic — which itself is
unreachable leftover generator code — and nothing is dispatched: for
every fuel the loop is still at offset 0 with an unchanged stream. -/
theorem c2_csi_parameter_sequences_never_dispatch :
    ∀ fuel,
      feed fuel initStream ("\x1b[;5H".data) =
        FeedOutcome.diverged initStream 0 ∧
      feed fuel initStream ("\x1b[99999A".data) =
        FeedOutcome.diverged initStream 0 := by
  intro fuel
  exact ⟨feedFrom_stuck (by decide) rfl (by decide) fuel,
         feedFrom_stuck (by decide) rfl (by decide) fuel⟩

/-- C3 counterexample: the claim says any chunking of the input produces
the *identical* ordered event sequence.  Feeding `"ab"` whole enqueues the
single event `draw("ab")`, while feeding the chunks `"a"`, `"b"` enqueues
`draw("a")`, `draw("b")` — different event sequences. -/
theorem c3_counterexample_chunking_changes_events :
    feed 5 initStream ("ab".data) =
      FeedOutcome.returned
        { initStream with event_queue := [mkDraw ("ab".data)] } ∧
    feedAll initStream [("a".data), ("b".data)] =
      FeedOutcome.returned
        { initStream with event_queue :=
            [mkDraw ("a".data), mkDraw ("b".data)] } ∧
    ([mkDraw ("ab".data)] : List Event) ≠ [mkDraw ("a".data), mkDraw ("b".data)] :=
  ⟨rfl, rfl, by decide⟩

/-- C3 (amended): feeding chunks in order draws the same text in the same
order as feeding the input whole, but not as the identical event
sequence: the whole input is drawn as one coalesced event, while each
chunk whose text is nonempty yields its own `draw` event.  For character
input made of plain (non-special) text this holds for every chunking;
for a byte-input `ByteStream` in UTF-8 mode it holds for every chunking
of the byte input — including a split in the middle of a multi-byte
character, which the incremental decoder carries across calls and
resolves once the remaining bytes arrive, ending in the same carry state
as feeding the bytes whole.  (For input whose decoded text contains a
special character, `feed` as written does not terminate at all — see
C1/C4.) -/
theorem c3_amended_chunked_feeding_draws_same_text
    (chunks : List (List Char)) (bchunks : List (List Nat))
    (hplain : ∀ c ∈ chunks, ∀ ch ∈ c, isSpecial ch = false)
    (hplainB : ∀ ch ∈ (utf8Decode [] bchunks.flatten).1, isSpecial ch = false) :
    feed (chunks.flatten.length + 2) initStream chunks.flatten =
      FeedOutcome.returned
        { initStream with event_queue :=
            if chunks.flatten.isEmpty then [] else [mkDraw chunks.flatten] } ∧
    feedAll initStream chunks =
      FeedOutcome.returned
        { initStream with event_queue :=
            (chunks.filter (fun c => !c.isEmpty)).map mkDraw } ∧
    drawnText ((chunks.filter (fun c => !c.isEmpty)).map mkDraw) =
      drawnText (if chunks.flatten.isEmpty then []
                 else [mkDraw chunks.flatten]) ∧
    ByteStream.feed initByteStream bchunks.flatten =
      ByteFeedOutcome.returned
        { toStream := { initStream with event_queue :=
            if (utf8Decode [] bchunks.flatten).1.isEmpty then []
            else [mkDraw (utf8Decode [] bchunks.flatten).1] },
          utf8_decoder := (utf8Decode [] bchunks.flatten).2 } ∧
    byteFeedAll initByteStream bchunks =
      ByteFeedOutcome.returned
        { toStream := { initStream with event_queue :=
            ((decodeChunks [] bchunks).1.filter (fun t => !t.isEmpty)).map mkDraw },
          utf8_decoder := (decodeChunks [] bchunks).2 } ∧
    (decodeChunks [] bchunks).2 = (utf8Decode [] bchunks.flatten).2 ∧
    drawnText (((decodeChunks [] bchunks).1.filter (fun t => !t.isEmpty)).map mkDraw) =
      drawnText (if (utf8Decode [] bchunks.flatten).1.isEmpty then []
                 else [mkDraw (utf8Decode [] bchunks.flatten).1]) := by
  refine ⟨?_, ?_, ?_, ?_, ?_, ?_, ?_⟩
  · have h := feedFrom_plain chunks.flatten.length initStream chunks.flatten rfl
      (by
        intro ch hch
        obtain ⟨c, hc, hmem⟩ := List.mem_flatten.mp hch
        exact hplain c hc ch hmem)
    by_cases hj : chunks.flatten.isEmpty = true
    · simpa [hj] using h
    · simpa [hj] using h
  · simpa using feedAll_plain chunks initStream rfl hplain
  · rw [drawnText_map_mkDraw ((chunks.filter (fun c => !c.isEmpty)))]
    rw [flatten_filter_nonempty]
    by_cases hj : chunks.flatten.isEmpty = true
    · rw [List.isEmpty_iff.mp hj]
      simp [drawnText]
    · simp only [hj, if_false, Bool.false_eq_true]
      have h1 := drawnText_map_mkDraw [chunks.flatten]
      simp only [List.map_cons, List.map_nil, List.flatten_cons,
        List.flatten_nil, List.append_nil] at h1
      exact h1.symm
  · have hfeedS := feedFrom_plain (utf8Decode [] bchunks.flatten).1.length
      initStream (utf8Decode [] bchunks.flatten).1 rfl hplainB
    show (match feedFrom ((utf8Decode [] bchunks.flatten).1.length + 2) initStream
            (utf8Decode [] bchunks.flatten).1 0 with
          | FeedOutcome.returned s =>
              ByteFeedOutcome.returned ⟨s, (utf8Decode [] bchunks.flatten).2⟩
          | FeedOutcome.diverged s off =>
              ByteFeedOutcome.diverged ⟨s, (utf8Decode [] bchunks.flatten).2⟩ off
          | FeedOutcome.raised s e =>
              ByteFeedOutcome.raised ⟨s, (utf8Decode [] bchunks.flatten).2⟩ e) = _
    by_cases hez : (utf8Decode [] bchunks.flatten).1.isEmpty = true
    · rw [hez, if_pos rfl] at hfeedS
      rw [hfeedS]
      simp [hez, initStream]
    · have hez0 : (utf8Decode [] bchunks.flatten).1.isEmpty = false := by
        revert hez
        cases (utf8Decode [] bchunks.flatten).1.isEmpty <;> simp
      rw [hez0, if_neg (by simp)] at hfeedS
      have hfeedS2 : feedFrom ((utf8Decode [] bchunks.flatten).1.length + 2) initStream
          (utf8Decode [] bchunks.flatten).1 0 =
          FeedOutcome.returned
            ⟨State.GROUND, true, true, [mkDraw (utf8Decode [] bchunks.flatten).1]⟩ :=
        hfeedS
      rw [hfeedS2]
      simp [hez0, initStream]
  · have h := byteFeedAll_plain bchunks State.GROUND true [] [] rfl hplainB
    simpa [initByteStream, initStream] using h
  · exact (decodeChunks_flatten bchunks []).2
  · rw [drawnText_map_mkDraw, flatten_filter_nonempty, (decodeChunks_flatten bchunks []).1]
    by_cases hez : (utf8Decode [] bchunks.flatten).1.isEmpty = true
    · rw [List.isEmpty_iff.mp hez]
      simp [drawnText]
    · simp only [hez, if_false, Bool.false_eq_true]
      have h1 := drawnText_map_mkDraw [(utf8Decode [] bchunks.flatten).1]
      simp only [List.map_cons, List.map_nil, List.flatten_cons,
        List.flatten_nil, List.append_nil] at h1
      exact h1.symm

/-- Witness for C3 (amended), at the concrete character chunking
`["a", "b"]` of `"ab"` and the concrete byte chunking `[[0xc3], [0xa9]]`
of the two-byte UTF-8 encoding of `"é"`, split in the middle of the
multi-byte character. -/
theorem c3_amended_chunked_feeding_draws_same_text_witness :
    (∀ c ∈ [("a".data), ("b".data)], ∀ ch ∈ c, isSpecial ch = false) ∧
    (∀ ch ∈ (utf8Decode [] ([[0xc3], [0xa9]] : List (List Nat)).flatten).1,
        isSpecial ch = false) ∧
    (feed (([("a".data), ("b".data)].flatten).length + 2) initStream
        ([("a".data), ("b".data)].flatten) =
      FeedOutcome.returned
        { initStream with event_queue :=
            if ([("a".data), ("b".data)].flatten).isEmpty then []
            else [mkDraw ([("a".data), ("b".data)].flatten)] } ∧
    feedAll initStream [("a".data), ("b".data)] =
      FeedOutcome.returned
        { initStream with event_queue :=
            ([("a".data), ("b".data)].filter (fun c => !c.isEmpty)).map mkDraw } ∧
    drawnText (([("a".data), ("b".data)].filter (fun c => !c.isEmpty)).map mkDraw) =
      drawnText (if ([("a".data), ("b".data)].flatten).isEmpty then []
                 else [mkDraw ([("a".data), ("b".data)].flatten)]) ∧
    ByteStream.feed initByteStream ([[0xc3], [0xa9]] : List (List Nat)).flatten =
      ByteFeedOutcome.returned
        { toStream := { initStream with event_queue :=
            if (utf8Decode [] ([[0xc3], [0xa9]] : List (List Nat)).flatten).1.isEmpty
            then []
            else [mkDraw (utf8Decode [] ([[0xc3], [0xa9]] : List (List Nat)).flatten).1] },
          utf8_decoder := (utf8Decode [] ([[0xc3], [0xa9]] : List (List Nat)).flatten).2 } ∧
    byteFeedAll initByteStream ([[0xc3], [0xa9]] : List (List Nat)) =
      ByteFeedOutcome.returned
        { toStream := { initStream with event_queue :=
            ((decodeChunks [] ([[0xc3], [0xa9]] : List (List Nat))).1.filter
              (fun t => !t.isEmpty)).map mkDraw },
          utf8_decoder := (decodeChunks [] ([[0xc3], [0xa9]] : List (List Nat))).2 } ∧
    (decodeChunks [] ([[0xc3], [0xa9]] : List (List Nat))).2 =
      (utf8Decode [] ([[0xc3], [0xa9]] : List (List Nat)).flatten).2 ∧
    drawnText (((decodeChunks [] ([[0xc3], [0xa9]] : List (List Nat))).1.filter
        (fun t => !t.isEmpty)).map mkDraw) =
      drawnText
        (if (utf8Decode [] ([[0xc3], [0xa9]] : List (List Nat)).flatten).1.isEmpty
         then []
         else [mkDraw (utf8Decode [] ([[0xc3], [0xa9]] : List (List Nat)).flatten).1])) :=
  ⟨by decide, by decide,
   c3_amended_chunked_feeding_draws_same_text [("a".data), ("b".data)]
     [[0xc3], [0xa9]] (by decide) (by decide)⟩

/-- C4: the claim says `feed` terminates on every finite input.  Feeding
the single character ESC makes the loop spin forever: the text match
fails, and the else-branch binds a dead local `taking_plain_text` instead
of clearing `self._taking_plain_text`, so the configuration never
changes; for every fuel the loop is still at offset 0. -/
theorem c4_feed_diverges_on_escape :
    ∀ fuel, feed fuel initStream ("\x1b".data) =
      FeedOutcome.diverged initStream 0 := by
  intro fuel
  exact feedFrom_stuck (by decide) rfl (by decide) fuel

/-- C5: the claim says a `basic` control byte consumed in GROUND emits
the mapped event (BEL emits `bell`, CR emits `carriage_return`) and the
machine stays in GROUND, with NUL and DEL ignored.  As written,
`_parse_byte` in GROUND enqueues the *raw character as a draw event* for
anything but NUL/DEL and then executes `return State.Ground`, an
undeclared enum member, raising AttributeError; for NUL and DEL it raises
without enqueueing.  The `basic`-table dispatch further down the function
is unreachable. -/
theorem c5_ground_control_byte_drawn_then_attribute_error :
    parse_byte State.GROUND BEL =
      ([mkDraw [BEL]], Except.error (PyErr.attributeError "Ground")) ∧
    parse_byte State.GROUND CR =
      ([mkDraw [CR]], Except.error (PyErr.attributeError "Ground")) ∧
    parse_byte State.GROUND NUL =
      ([], Except.error (PyErr.attributeError "Ground")) ∧
    parse_byte State.GROUND DEL =
      ([], Except.error (PyErr.attributeError "Ground")) :=
  ⟨rfl, rfl, rfl, rfl⟩

/-- C6: the claim says a byte after ESC that is neither a recognized
introducer nor in the `escape` table is silently ignored with a return to
GROUND and never causes a failure.  As written, the handler executes
`self.listener.enqueue(escape[char])` on a plain dict, so an unrecognized
final byte such as `z` raises KeyError instead of being ignored. -/
theorem c6_unknown_escape_byte_raises_keyerror :
    parse_byte State.ESC 'z' = ([], Except.error (PyErr.keyError 'z')) := rfl

/-- C7: the claim says `ESC ] 2 ; hello BEL` (and the ST-terminated
variant) produces `set_title("hello")`.  In the code as written, `feed`
loops forever as soon as it reaches the leading ESC (the failed text
match assigns a dead local instead of `self._taking_plain_text`), so the
OSC capture logic — itself unreachable leftover generator code that calls
an undefined name `listener` — never runs and no event is produced, for
either terminator. -/
theorem c7_osc_title_never_dispatched :
    ∀ fuel,
      feed fuel initStream ("\x1b]2;hello\x07".data) =
        FeedOutcome.diverged initStream 0 ∧
      feed fuel initStream ("\x1b]2;hello\x1b\\".data) =
        FeedOutcome.diverged initStream 0 := by
  intro fuel
  exact ⟨feedFrom_stuck (by decide) rfl (by decide) fuel,
         feedFrom_stuck (by decide) rfl (by decide) fuel⟩

/-- C8: the claim says a consumer missing a required method fails to
attach only under `strict=True`, that the same consumer attaches fine
with `strict=False`, and that detaching a non-attached consumer is a
silent no-op.  As written, *every* `attach` call — strict or not, even
with a consumer implementing the full `events` set — raises
AttributeError, because the method's first statement reads
`self.listener`, an attribute `__init__` never sets.  Only the detach
no-op part behaves as claimed. -/
theorem c8_attach_raises_attribute_error :
    Listener.attach (freshListener false) fullConsumer =
      Except.error (PyErr.attributeError "listener") ∧
    Listener.attach (freshListener true) fullConsumer =
      Except.error (PyErr.attributeError "listener") ∧
    Listener.detach (freshListener false) fullConsumer = freshListener false :=
  ⟨rfl, rfl, rfl⟩

/-- C9 counterexample: the claim says switching `use_utf8` back to UTF-8
with code `'8'` (or `'G'`) resets the incremental decoder's carry state.
Applying `select_other_charset('8')` to a byte stream whose decoder holds
the pending byte `0xe2` switches the flag from `False` to `True` and
leaves the pending byte in place. -/
theorem c9_counterexample_utf8_switch_keeps_carry :
    (pendingByteStream.select_other_charset '8').use_utf8 = true ∧
    (pendingByteStream.select_other_charset '8').utf8_decoder = [0xe2] ∧
    (pendingByteStream.select_other_charset '8').utf8_decoder ≠ [] :=
  ⟨rfl, rfl, by decide⟩

/-- C9 (amended): only the switch *to* the legacy single-byte mode (code
`'@'`) resets the incremental decoder's carry state; the switches back to
UTF-8 (codes `'G'` and `'8'`) set the flag and leave the decoder's carry
untouched. -/
theorem c9_select_other_charset_resets_only_on_legacy (bs : ByteStream) :
    (bs.select_other_charset '@').use_utf8 = false ∧
    (bs.select_other_charset '@').utf8_decoder = [] ∧
    (bs.select_other_charset 'G').use_utf8 = true ∧
    (bs.select_other_charset 'G').utf8_decoder = bs.utf8_decoder ∧
    (bs.select_other_charset '8').use_utf8 = true ∧
    (bs.select_other_charset '8').utf8_decoder = bs.utf8_decoder :=
  ⟨rfl, rfl, rfl, rfl, rfl, rfl⟩

/-- C10: feeding the empty string is a complete no-op: `length = 0`, the
`while` loop body never runs, `feed` returns with the whole stream state
— automaton state, `use_utf8`, `_taking_plain_text`, event queue —
unchanged and no events enqueued, for every starting state. -/
theorem c10_feed_empty_is_noop :
    ∀ (fuel : Nat) (s : Stream),
      feed (fuel + 1) s [] = FeedOutcome.returned s := by
  intro fuel s
  rfl

end Pyte
